/-
Verification of the mabs multi-armed-bandit selection engine.

Shallow embedding of `assets.py` (Asset, AssetSet, Selector) and the
relevant part of `utils.py` (standard_error, confint95).

Modelling conventions:
- Python floats that hold exact counters are modelled as natural numbers
  (`offers`, `redemptions`, the global `total`), exact float ratios as
  rationals, and transcendental arithmetic (exp, log, sqrt) as real numbers.
- `random()` draws are explicit parameters (rationals for the Bernoulli
  draw in `Asset.offer`, reals for the softmax cumulative sampling).
- The pool of shared mutable `Asset` objects is a store `Nat → Asset`;
  the schedule `asset_map` refers to assets by index into that store.
- In the source, `AssetSet.assets_with_increment` is defined as an ordinary
  method but every call site in `Selector.make_choice` reads it as if it
  were a property: `sorted(asset_set.assets_with_increment, key=...)`
  receives the bound-method object itself, which is not iterable, so the
  Python interpreter raises `TypeError` before the method body can run.
  Those code paths are embedded as an immediate `typeError` with the state
  unchanged, since no mutation happens before the raise.
-/
import Mathlib

set_option maxHeartbeats 1000000

/-! ### Performance tracker: `Asset` -/

/-- Model of `assets.Asset`: `likelihood` is the hidden success probability,
`offers`/`redemptions` the trial/success counters and `conversionCache`
models the mutable `_conversion` field. -/
structure Asset where
  name : String
  likelihood : ℚ
  offers : ℕ
  redemptions : ℕ
  conversionCache : ℚ
deriving Repr

/-- Model of `Asset.__init__(name, likelihood)`. -/
def mkAsset (name : String) (likelihood : ℚ) : Asset :=
  { name := name, likelihood := likelihood, offers := 0, redemptions := 0,
    conversionCache := 0 }

/-- Model of `Asset.offer`: `draw` stands for the `random()` sample; the
success counter bumps when `draw <= likelihood`, the trial counter always
bumps, and the cached conversion is recomputed. -/
def Asset.offer (a : Asset) (draw : ℚ) : Asset :=
  let redemptions := if draw ≤ a.likelihood then a.redemptions + 1 else a.redemptions
  let offers := a.offers + 1
  { a with redemptions := redemptions, offers := offers,
           conversionCache := (redemptions : ℚ) / (offers : ℚ) }

/-- Model of the `Asset.conversion` property: `0` at zero offers, otherwise
the cached `_conversion` value. -/
def Asset.conversion (a : Asset) : ℚ :=
  if a.offers = 0 then 0 else a.conversionCache

/-- A sequence of `offer` calls, one per listed draw. -/
def offerFold (a : Asset) (draws : List ℚ) : Asset :=
  draws.foldl Asset.offer a

/-! ### Statistics provider: `utils.standard_error` and `utils.confint95` -/

/-- Model of `utils.standard_error(r, o)`: `(0, 0)` when `o == 0`, otherwise
the point estimate `r / o` together with `sqrt(phat * (1 - phat) / o)`. -/
noncomputable def standard_error (r o : ℕ) : ℝ × ℝ :=
  if o = 0 then (0, 0)
  else
    let phat := (r : ℝ) / (o : ℝ)
    (phat, Real.sqrt ((phat * (1 - phat)) / (o : ℝ)))

/-- Model of `utils.confint95(r, o)`: upper bound `conv + se * 2` and lower
bound `max 0 (conv - se * 2)`. -/
noncomputable def confint95 (r o : ℕ) : ℝ × ℝ :=
  let p := standard_error r o
  (p.1 + p.2 * 2, max 0 (p.1 - p.2 * 2))

/-! ### Eligibility pool: `AssetSet` -/

/-- An admission key of `AssetSet.asset_map`: either a scalar threshold or a
`(lo, hi)` tuple. -/
inductive AKey where
  | scalar (t : ℕ)
  | interval (lo hi : ℕ)
deriving Repr, DecidableEq

/-- The admission test of the `AssetSet.assets` property: a scalar key `t`
admits when `total >= t`; a tuple key `(mn, mx)` admits when
`mn <= total and total < mx`. -/
def admits : AKey → ℕ → Bool
  | .scalar t, total => decide (t ≤ total)
  | .interval lo hi, total => decide (lo ≤ total) && decide (total < hi)

/-- Model of `assets.AssetSet`: the schedule, the global counter `total`,
the cached `_counts` sum, and the store of shared `Asset` objects. -/
structure AssetSet where
  asset_map : List (AKey × List ℕ)
  total : ℕ
  countsCache : ℕ
  store : ℕ → Asset

/-- The membership computation inside the `AssetSet.assets` property: the
deduplicated union of the groups whose key admits the current count. -/
def activeIds (amap : List (AKey × List ℕ)) (total : ℕ) : List ℕ :=
  ((amap.filter (fun e => admits e.1 total)).flatMap (fun e => e.2)).dedup

/-- Model of the `AssetSet.assets` property: returns the active ids and the
state with `_counts` recomputed as the sum of their offers. -/
def AssetSet.assets (s : AssetSet) : List ℕ × AssetSet :=
  let ids := activeIds s.asset_map s.total
  (ids, { s with countsCache := (ids.map (fun i => (s.store i).offers)).sum })

/-- The `self.total += 1` step. -/
def AssetSet.incTotal (s : AssetSet) : AssetSet :=
  { s with total := s.total + 1 }

/-- Model of calling `AssetSet.assets_with_increment()`: reads the `assets`
property, then increments `total`. -/
def AssetSet.assets_with_increment (s : AssetSet) : List ℕ × AssetSet :=
  let p := s.assets
  (p.1, p.2.incTotal)

/-- Model of `AssetSet._assets_values(increment)`: captures the current
assets, optionally increments `total`, then reads their conversions. -/
def AssetSet.assetsValues (s : AssetSet) (increment : Bool) :
    List ℕ × List ℚ × AssetSet :=
  let p := s.assets
  let s2 := if increment then p.2.incTotal else p.2
  (p.1, p.1.map (fun i => (s2.store i).conversion), s2)

/-- Recording a trial on the asset at index `i` of the store. -/
def AssetSet.offerAt (s : AssetSet) (i : ℕ) (draw : ℚ) : AssetSet :=
  { s with store := Function.update s.store i ((s.store i).offer draw) }

/-! ### Theorems for claims C4, C5, C6, C10 -/

/-- Claim C4: membership in the active set computed by the `assets` query is
exactly the deduplicated union of groups under a scalar key `t` with
`total >= t` and groups under an interval key `(lo, hi)` with
`lo <= total < hi`; the result is duplicate-free, and a tracker under the
interval key `(600, 800)` is a member exactly when `600 <= total < 800`
(so it is excluded at 599 and 800 and included at 600 and 799). -/
theorem active_set_membership_c4 (amap : List (AKey × List ℕ)) (c i : ℕ) :
    (i ∈ activeIds amap c ↔
      ((∃ t l, (AKey.scalar t, l) ∈ amap ∧ i ∈ l ∧ t ≤ c) ∨
       (∃ lo hi l, (AKey.interval lo hi, l) ∈ amap ∧ i ∈ l ∧ lo ≤ c ∧ c < hi))) ∧
    (activeIds amap c).Nodup ∧
    (∀ z c', z ∈ activeIds [(AKey.interval 600 800, [z])] c' ↔
      600 ≤ c' ∧ c' < 800) := by
  refine ⟨?_, List.nodup_dedup _, ?_⟩
  · simp only [activeIds, List.mem_dedup, List.mem_flatMap, List.mem_filter]
    constructor
    · rintro ⟨⟨k, l⟩, ⟨hmem, hadm⟩, hil⟩
      cases k with
      | scalar t =>
        left
        refine ⟨t, l, hmem, hil, ?_⟩
        simpa [admits] using hadm
      | interval lo hi =>
        right
        refine ⟨lo, hi, l, hmem, hil, ?_⟩
        simpa [admits] using hadm
    · rintro (⟨t, l, hmem, hil, hle⟩ | ⟨lo, hi, l, hmem, hil, hlo, hhi⟩)
      · exact ⟨(AKey.scalar t, l), ⟨hmem, by simpa [admits] using hle⟩, hil⟩
      · exact ⟨(AKey.interval lo hi, l), ⟨hmem, by simp [admits, hlo, hhi]⟩, hil⟩
  · intro z c'
    by_cases h : 600 ≤ c' ∧ c' < 800
    · simp [activeIds, admits, h.1, h.2]
    · rcases Decidable.not_and_iff_or_not.mp h with h' | h'
      · simp [activeIds, admits, h']
      · simp [activeIds, admits, h']

/-- Claim C5: the non-incrementing `assets` query never changes the global
trial count and is idempotent (repeating it yields the same membership and
the same state), while `assets_with_increment` returns exactly the
membership that `assets` returns at the same count and only afterwards
increments the global count by one. -/
theorem assets_query_frame_c5 (s : AssetSet) :
    (s.assets.2.total = s.total) ∧
    (s.assets.2.assets.1 = s.assets.1) ∧
    (s.assets.2.assets.2 = s.assets.2) ∧
    (s.assets_with_increment.1 = s.assets.1) ∧
    (s.assets_with_increment.2.total = s.total + 1) :=
  ⟨rfl, rfl, rfl, rfl, rfl⟩

/-- Offers grow by exactly the number of draws folded in. -/
theorem offerFold_offers (a : Asset) (draws : List ℚ) :
    (offerFold a draws).offers = a.offers + draws.length := by
  induction draws generalizing a with
  | nil => simp [offerFold]
  | cons d ds ih =>
    have h := ih (a.offer d)
    simp only [offerFold, List.foldl_cons] at h ⊢
    rw [h]
    simp [Asset.offer]
    omega

/-- The success counter never exceeds the trial counter along any fold. -/
theorem offerFold_red_le (a : Asset) (draws : List ℚ)
    (h : a.redemptions ≤ a.offers) :
    (offerFold a draws).redemptions ≤ (offerFold a draws).offers := by
  induction draws generalizing a with
  | nil => simpa [offerFold] using h
  | cons d ds ih =>
    simp only [offerFold, List.foldl_cons] at ih ⊢
    apply ih
    simp only [Asset.offer]
    split <;> omega

/-- Both counters are monotone along any fold of offers. -/
theorem offerFold_mono (a : Asset) (draws : List ℚ) :
    a.offers ≤ (offerFold a draws).offers ∧
    a.redemptions ≤ (offerFold a draws).redemptions := by
  induction draws generalizing a with
  | nil => simp [offerFold]
  | cons d ds ih =>
    have h := ih (a.offer d)
    simp only [offerFold, List.foldl_cons] at h ⊢
    have h1 : a.offers ≤ (a.offer d).offers := by simp [Asset.offer]
    have h2 : a.redemptions ≤ (a.offer d).redemptions := by
      simp only [Asset.offer]; split <;> omega
    exact ⟨le_trans h1 h.1, le_trans h2 h.2⟩

/-- Claim C6: starting from a freshly constructed tracker, after any `N`
recorded trials we have `successes <= trials = N`, and across any sequence
of offers both counters are monotonically non-decreasing (never reset). -/
theorem asset_counters_c6 (name : String) (likelihood : ℚ) (draws : List ℚ) :
    (offerFold (mkAsset name likelihood) draws).offers = draws.length ∧
    (offerFold (mkAsset name likelihood) draws).redemptions ≤
      (offerFold (mkAsset name likelihood) draws).offers ∧
    (∀ a : Asset, a.offers ≤ (offerFold a draws).offers ∧
      a.redemptions ≤ (offerFold a draws).redemptions) := by
  refine ⟨?_, ?_, fun a => offerFold_mono a draws⟩
  · simpa [mkAsset] using offerFold_offers (mkAsset name likelihood) draws
  · exact offerFold_red_le _ _ (by simp [mkAsset])

/-- The cached conversion is fresh in every reachable tracker state. -/
theorem offerFold_cache (a : Asset) (draws : List ℚ)
    (h : a.offers ≠ 0 → a.conversionCache = (a.redemptions : ℚ) / (a.offers : ℚ)) :
    (offerFold a draws).offers ≠ 0 →
      (offerFold a draws).conversionCache =
        ((offerFold a draws).redemptions : ℚ) / ((offerFold a draws).offers : ℚ) := by
  induction draws generalizing a with
  | nil => simpa [offerFold] using h
  | cons d ds ih =>
    simp only [offerFold, List.foldl_cons] at ih ⊢
    exact ih (a.offer d) (fun _ => rfl)

/-- Claim C10: in every tracker state reachable by offers from construction,
the `conversion` query returns `0` at zero trials and `successes / trials`
otherwise; the cached value is never stale. -/
theorem asset_conversion_c10 (name : String) (likelihood : ℚ) (draws : List ℚ) :
    (offerFold (mkAsset name likelihood) draws).conversion =
      if (offerFold (mkAsset name likelihood) draws).offers = 0 then 0
      else ((offerFold (mkAsset name likelihood) draws).redemptions : ℚ) /
        ((offerFold (mkAsset name likelihood) draws).offers : ℚ) := by
  by_cases h0 : (offerFold (mkAsset name likelihood) draws).offers = 0
  · simp [Asset.conversion, h0]
  · rw [Asset.conversion, if_neg h0, if_neg h0]
    exact offerFold_cache (mkAsset name likelihood) draws (by simp [mkAsset]) h0

/-! ### Softmax machinery and error modelling -/

/-- Python exceptions that the embedded code paths can raise. -/
inductive PyErr where
  | typeError
  | valueError
  | indexError
deriving Repr, DecidableEq

/-- The shared temperature expression `.25 / log(t + .1e-7)` with `t = m + 1`,
i.e. `0.25 / ln(m + 1 + 1e-8)`. -/
noncomputable def tempFormula (m : ℕ) : ℝ :=
  0.25 / Real.log ((m : ℝ) + 1 + 1e-8)

/-- Model of the `AssetSet.soft_max_temp` property: the formula applied to
the cached `counts` sum. -/
noncomputable def AssetSet.soft_max_temp (s : AssetSet) : ℝ :=
  tempFormula s.countsCache

/-- Temperature from an optional minimum offers count; `min([])` raises
`ValueError` in Python, modelled by the `none` arm. -/
noncomputable def tempOfMinOffers : Option ℕ → Except PyErr ℝ
  | none => .error .valueError
  | some m => .ok (tempFormula m)

/-- Model of the `AssetSet.soft_max_temp_min` property: re-reads the
`assets` property (at the CURRENT `total`, with its cache side effect) and
applies the formula to the least offers count of that set. -/
noncomputable def AssetSet.soft_max_temp_min (s : AssetSet) :
    Except PyErr ℝ × AssetSet :=
  let p := s.assets
  (tempOfMinOffers ((p.1.map (fun i => (p.2.store i).offers)).min?), p.2)

/-- Model of `AssetSet._probs_from_conversions_temps`. -/
noncomputable def probsFromConversionsTemps (conversions : List ℝ) (temp : ℝ) :
    List ℝ :=
  let denominator := (conversions.map (fun v => Real.exp (v / temp))).sum
  conversions.map (fun v => Real.exp (v / temp) / denominator)

/-- The cumulative-probability loop of `AssetSet._choose_assets_with_temp`:
accumulate mass and return the first asset whose cumulative mass exceeds
the draw. -/
noncomputable def chooseLoop : List ℝ → List ℕ → ℝ → ℝ → Option ℕ
  | p :: ps, i :: rest, rand, cumProb =>
    if cumProb + p > rand then some i else chooseLoop ps rest rand (cumProb + p)
  | _, _, _, _ => none

/-- Model of `AssetSet._choose_assets_with_temp`: run the loop, fall back to
the last asset; `cur_assets[-1]` on an empty list raises `IndexError`. -/
noncomputable def chooseAssetsWithTemp (curAssets : List ℕ) (vals : List ℚ)
    (temp rand : ℝ) : Except PyErr ℕ :=
  match chooseLoop (probsFromConversionsTemps
      (vals.map (fun v => (Rat.cast v : ℝ))) temp) curAssets rand 0 with
  | some i => .ok i
  | none =>
    match curAssets.getLast? with
    | some i => .ok i
    | none => .error .indexError

/-- Model of `AssetSet.soft_max_choice`: the standard-temperature softmax
selection (temperature from the cached counts of the pre-increment set). -/
noncomputable def AssetSet.soft_max_choice (s : AssetSet) (increment : Bool)
    (rand : ℝ) : Except PyErr ℕ × AssetSet :=
  (chooseAssetsWithTemp (s.assetsValues increment).1
    (s.assetsValues increment).2.1
    (s.assetsValues increment).2.2.soft_max_temp rand,
   (s.assetsValues increment).2.2)

/-- Model of `AssetSet.soft_max_2_choice`: the minimum-offers-temperature
softmax selection. -/
noncomputable def AssetSet.soft_max_2_choice (s : AssetSet) (increment : Bool)
    (rand : ℝ) : Except PyErr ℕ × AssetSet :=
  match ((s.assetsValues increment).2.2.soft_max_temp_min).1 with
  | .error e => (.error e, (s.assetsValues increment).2.2.soft_max_temp_min.2)
  | .ok temp => (chooseAssetsWithTemp (s.assetsValues increment).1
      (s.assetsValues increment).2.1 temp rand,
      (s.assetsValues increment).2.2.soft_max_temp_min.2)

/-- The temperature value that `soft_max_2_choice` feeds to the sampling
step, extracted along the same state path. -/
noncomputable def softMax2TempUsed (s : AssetSet) (increment : Bool) :
    Except PyErr ℝ :=
  ((s.assetsValues increment).2.2.soft_max_temp_min).1

/-- Modelled from the claim: the temperature formula applied to the minimum
offers over the SAME active set the tracker is drawn from (the set whose
conversions feed the distribution). -/
noncomputable def claimTempC7 (s : AssetSet) (increment : Bool) :
    Except PyErr ℝ :=
  let q := s.assetsValues increment
  tempOfMinOffers ((q.1.map (fun i => (q.2.2.store i).offers)).min?)

/-- The temperature formula applied to the minimum offers over the active
set recomputed at the post-increment global count. -/
noncomputable def postTempC7 (s : AssetSet) (increment : Bool) :
    Except PyErr ℝ :=
  let s2 := (s.assetsValues increment).2.2
  tempOfMinOffers (((activeIds s2.asset_map s2.total).map
    (fun i => (s2.store i).offers)).min?)

/-- Concrete asset with five recorded offers. -/
def assetA : Asset :=
  { name := "A", likelihood := 0, offers := 5, redemptions := 0, conversionCache := 0 }

/-- Concrete fresh asset. -/
def assetB : Asset :=
  { name := "B", likelihood := 0, offers := 0, redemptions := 0, conversionCache := 0 }

/-- Pool whose second asset is admitted only from global count 1 on, so the
increment inside `soft_max_2_choice` changes the membership that
`soft_max_temp_min` sees. -/
def simC7 : AssetSet :=
  { asset_map := [(AKey.scalar 0, [0]), (AKey.scalar 1, [1])],
    total := 0, countsCache := 0,
    store := fun i => if i = 0 then assetA else assetB }

/-- Claim C7 counterexample: with an increment that crosses an admission
boundary, the temperature used by `soft_max_2_choice` is computed from a
DIFFERENT active set (the post-increment one) than the set the tracker is
drawn from, so it differs from the claimed `0.25 / ln(min + 1 + 1e-8)` over
the draw set: here the code uses `min = 0` while the draw set has
`min = 5`. -/
theorem soft_max_temp_min_c7_counterexample :
    softMax2TempUsed simC7 true ≠ claimTempC7 simC7 true := by
  have h1 : softMax2TempUsed simC7 true = Except.ok (tempFormula 0) := rfl
  have h2 : claimTempC7 simC7 true = Except.ok (tempFormula 5) := rfl
  rw [h1, h2]
  simp only [ne_eq, Except.ok.injEq]
  have ha : (1 : ℝ) < ((0 : ℕ) : ℝ) + 1 + 1e-8 := by norm_num
  have hb : ((0 : ℕ) : ℝ) + 1 + 1e-8 < ((5 : ℕ) : ℝ) + 1 + 1e-8 := by norm_num
  have h0 : (0 : ℝ) < Real.log (((0 : ℕ) : ℝ) + 1 + 1e-8) := Real.log_pos ha
  have hlt : Real.log (((0 : ℕ) : ℝ) + 1 + 1e-8) <
      Real.log (((5 : ℕ) : ℝ) + 1 + 1e-8) :=
    Real.log_lt_log (lt_trans one_pos ha) hb
  have hdiv : (0.25 : ℝ) / Real.log (((5 : ℕ) : ℝ) + 1 + 1e-8) <
      (0.25 : ℝ) / Real.log (((0 : ℕ) : ℝ) + 1 + 1e-8) :=
    div_lt_div_of_pos_left (by norm_num) h0 hlt
  unfold tempFormula
  exact hdiv.ne'

/-- Claim C7 as amended: the distribution is formed over the active set
read at call time, but the temperature is `0.25 / ln(m + 1 + 1e-8)` with
`m` the minimum offers over the active set recomputed AFTER the optional
global-count increment; when no increment is requested that set is exactly
the set the tracker is drawn from, and the claim holds as stated. -/
theorem soft_max_temp_min_c7_amended (s : AssetSet) (increment : Bool) :
    softMax2TempUsed s increment = postTempC7 s increment ∧
    softMax2TempUsed s false = claimTempC7 s false :=
  ⟨rfl, rfl⟩

/-! ### Theorems for claims C8 and C9 -/

/-- Distributing a division over a list sum. -/
theorem list_sum_map_div (l : List ℝ) (g : ℝ → ℝ) (d : ℝ) :
    (l.map (fun x => g x / d)).sum = (l.map g).sum / d := by
  induction l with
  | nil => simp
  | cons a l ih => simp [ih, add_div]

/-- Claim C8 counterexample: on the singleton conversion list `[0]` with
temperature `1` the computed probability is exactly `1`, which is not in
the open interval `(0, 1)`. -/
theorem softmax_probs_c8_counterexample :
    ¬ (∀ p ∈ probsFromConversionsTemps [0] 1, 0 < p ∧ p < 1) := by
  intro h
  have heq : probsFromConversionsTemps [0] 1 = [1] := by
    simp [probsFromConversionsTemps]
  have hmem : (1 : ℝ) ∈ probsFromConversionsTemps [0] 1 := by
    rw [heq]; exact List.mem_singleton.mpr rfl
  exact absurd (h 1 hmem).2 (lt_irrefl 1)

/-- Claim C8 as amended: for every non-empty conversion list and positive
temperature the softmax probabilities sum to `1` and each lies in the
half-open interval `(0, 1]` (the value `1` is attained on singleton
lists). -/
theorem softmax_probs_c8_amended (conversions : List ℝ)
    (h : conversions ≠ []) (temp : ℝ) (_ht : 0 < temp) :
    (probsFromConversionsTemps conversions temp).sum = 1 ∧
    ∀ p ∈ probsFromConversionsTemps conversions temp, 0 < p ∧ p ≤ 1 := by
  have hpos : ∀ x ∈ conversions.map (fun v => Real.exp (v / temp)), 0 < x := by
    intro x hx
    obtain ⟨v, _, rfl⟩ := List.mem_map.mp hx
    exact Real.exp_pos _
  have hne : conversions.map (fun v => Real.exp (v / temp)) ≠ [] := by
    simpa using h
  have hD : 0 < (conversions.map (fun v => Real.exp (v / temp))).sum :=
    List.sum_pos _ hpos hne
  constructor
  · rw [probsFromConversionsTemps, list_sum_map_div]
    exact div_self hD.ne'
  · intro p hp
    rw [probsFromConversionsTemps, List.mem_map] at hp
    obtain ⟨v, hv, rfl⟩ := hp
    refine ⟨div_pos (Real.exp_pos _) hD, ?_⟩
    rw [div_le_one hD]
    exact List.single_le_sum (fun x hx => le_of_lt (hpos x hx)) _
      (List.mem_map_of_mem _ hv)

/-- Witness for the amended claim C8 on the concrete input `[0, 1]` with
temperature `1`. -/
theorem softmax_probs_c8_witness :
    (probsFromConversionsTemps [0, 1] 1).sum = 1 ∧
    ∀ p ∈ probsFromConversionsTemps [0, 1] 1, 0 < p ∧ p ≤ 1 :=
  softmax_probs_c8_amended [0, 1] (by simp) 1 one_pos

/-- Unfolded form of `standard_error` at a positive trial count. -/
theorem standard_error_pos_trials (r o : ℕ) (h : o ≠ 0) :
    standard_error r o = ((r : ℝ) / (o : ℝ),
      Real.sqrt ((((r : ℝ) / (o : ℝ)) * (1 - (r : ℝ) / (o : ℝ))) / (o : ℝ))) := by
  simp [standard_error, h]

/-- Claim C9: the interval provider returns `(0, 0)` at zero trials (no
division by zero), and at positive trials the returned `(upper, lower)`
pair brackets the point estimate `r / o`. -/
theorem confint95_c9 (r o : ℕ) :
    confint95 r 0 = (0, 0) ∧
    (0 < o → (confint95 r o).2 ≤ (r : ℝ) / (o : ℝ) ∧
      (r : ℝ) / (o : ℝ) ≤ (confint95 r o).1) := by
  constructor
  · simp [confint95, standard_error]
  · intro ho
    have hne : o ≠ 0 := Nat.pos_iff_ne_zero.mp ho
    have hsq : (0 : ℝ) ≤
        Real.sqrt ((((r : ℝ) / (o : ℝ)) * (1 - (r : ℝ) / (o : ℝ))) / (o : ℝ)) :=
      Real.sqrt_nonneg _
    have hphat : (0 : ℝ) ≤ (r : ℝ) / (o : ℝ) := by positivity
    rw [confint95, standard_error_pos_trials r o hne]
    constructor
    · exact max_le hphat (by nlinarith)
    · nlinarith

/-- Witness for claim C9 at `r = 3`, `o = 4` (and the zero-trials clause). -/
theorem confint95_c9_witness :
    confint95 3 0 = (0, 0) ∧
    ((confint95 3 4).2 ≤ ((3 : ℕ) : ℝ) / ((4 : ℕ) : ℝ) ∧
      ((3 : ℕ) : ℝ) / ((4 : ℕ) : ℝ) ≤ (confint95 3 4).1) :=
  ⟨(confint95_c9 3 4).1, (confint95_c9 3 4).2 (by decide)⟩

/-! ### Strategy dispatcher: `Selector` -/

/-- Model of `assets.Selector`: the configured `rho` (a probability or a
sentinel constant), the warm-start `start`, the two reporting counters and
the pluggable rho function. -/
structure Selector where
  rho : ℚ
  start : ℕ
  rho_selected : ℕ
  best_selected : ℕ
  rhof : AssetSet → ℚ

/-- Sentinel constant `Selector.USE_SOFT_MAX_2`. -/
def USE_SOFT_MAX_2 : ℚ := -40

/-- Sentinel constant `Selector.USE_SOFT_MAX`. -/
def USE_SOFT_MAX : ℚ := -30

/-- Sentinel constant `Selector.USE_RHO_FUNC`. -/
def USE_RHO_FUNC : ℚ := -20

/-- Sentinel constant `Selector.ONLY_BEST`. -/
def ONLY_BEST : ℚ := -10

/-- Sentinel constant `Selector.RANDOM`. -/
def RANDOM : ℚ := -1

/-- Model of `Selector.__init__(rho, start)`: counters at zero, default
`rhof` returning the configured rho. -/
def mkSelector (rho : ℚ) (start : ℕ) : Selector :=
  { rho := rho, start := start, rho_selected := 0, best_selected := 0,
    rhof := fun _ => rho }

/-- Model of `Selector.make_choice(asset_set)`.

The source reads `asset_set.assets_with_increment` (without calling it) and
passes it to `sorted`, both under the warm-start gate (`if self.start:`)
and on the late path all non-softmax modes reach (`if not choices:`).
`sorted` raises `TypeError: instancemethod object is not iterable` before
the method body runs, so on those paths no trial is recorded and the global
count is not incremented: the state comes back unchanged. The two softmax
modes with `start == 0` bypass both `sorted` calls: they delegate to the
pool's choice method with `increment=True` (`not assets_incremented`) and
record one trial on the returned asset. `rand` models the `random()` draw
of the cumulative sampling and `draw` the one inside `Asset.offer`. -/
noncomputable def Selector.make_choice (sel : Selector) (s : AssetSet)
    (rand : ℝ) (draw : ℚ) : Except PyErr Unit × AssetSet :=
  if sel.start ≠ 0 then
    (.error .typeError, s)
  else if sel.rho = USE_SOFT_MAX then
    match s.soft_max_choice true rand with
    | (.ok i, s2) => (.ok (), s2.offerAt i draw)
    | (.error e, s2) => (.error e, s2)
  else if sel.rho = USE_SOFT_MAX_2 then
    match s.soft_max_2_choice true rand with
    | (.ok i, s2) => (.ok (), s2.offerAt i draw)
    | (.error e, s2) => (.error e, s2)
  else
    (.error .typeError, s)

/-- The cumulative-sampling step always selects some asset when the active
list is non-empty. -/
theorem chooseAssetsWithTemp_ok (curAssets : List ℕ) (vals : List ℚ)
    (temp rand : ℝ) (h : curAssets ≠ []) :
    ∃ i, chooseAssetsWithTemp curAssets vals temp rand = .ok i := by
  unfold chooseAssetsWithTemp
  cases hc : chooseLoop (probsFromConversionsTemps
      (vals.map (fun v => (Rat.cast v : ℝ))) temp) curAssets rand 0 with
  | some i => exact ⟨i, rfl⟩
  | none =>
    cases hl : curAssets.getLast? with
    | some i => exact ⟨i, rfl⟩
    | none => exact absurd (List.getLast?_eq_none_iff.mp hl) h

/-- The standard softmax choice succeeds whenever the active set at the
current count is non-empty. -/
theorem soft_max_choice_ok (s : AssetSet) (rand : ℝ)
    (h : activeIds s.asset_map s.total ≠ []) :
    ∃ i s2, s.soft_max_choice true rand = (.ok i, s2) := by
  obtain ⟨i, hi⟩ := chooseAssetsWithTemp_ok (s.assetsValues true).1
    (s.assetsValues true).2.1 (s.assetsValues true).2.2.soft_max_temp rand h
  exact ⟨i, (s.assetsValues true).2.2, by rw [AssetSet.soft_max_choice, hi]⟩

/-- The minimum-temperature softmax choice succeeds whenever the active
sets at the current and at the incremented count are both non-empty. -/
theorem soft_max_2_choice_ok (s : AssetSet) (rand : ℝ)
    (h1 : activeIds s.asset_map s.total ≠ [])
    (h2 : activeIds s.asset_map (s.total + 1) ≠ []) :
    ∃ i s2, s.soft_max_2_choice true rand = (.ok i, s2) := by
  rcases hm : (((s.assetsValues true).2.2.assets.1).map
      (fun i => ((s.assetsValues true).2.2.assets.2.store i).offers)).min? with _ | m
  · rw [List.min?_eq_none_iff, List.map_eq_nil_iff] at hm
    exact absurd hm h2
  · obtain ⟨i, hi⟩ := chooseAssetsWithTemp_ok (s.assetsValues true).1
      (s.assetsValues true).2.1 (tempFormula m) rand h1
    refine ⟨i, (s.assetsValues true).2.2.soft_max_temp_min.2, ?_⟩
    have htp : ((s.assetsValues true).2.2.soft_max_temp_min).1 =
        .ok (tempFormula m) := by
      rw [AssetSet.soft_max_temp_min, hm]
      rfl
    rw [AssetSet.soft_max_2_choice, htp]
    simp [hi]

/-- Claim C2: every configuration with `start > 0`, and every configuration
whose mode is not one of the two softmax sentinels, raises `TypeError` on
the first `make_choice` call, before recording any trial and before
incrementing the global trial count (the pool state is returned unchanged);
with `start == 0`, the two softmax modes complete without error whenever
the active sets at the current and at the incremented count are
non-empty. -/
theorem make_choice_type_error_c2 (sel : Selector) (s : AssetSet)
    (rand : ℝ) (draw : ℚ) :
    ((sel.start ≠ 0 ∨ (sel.rho ≠ USE_SOFT_MAX ∧ sel.rho ≠ USE_SOFT_MAX_2)) →
      sel.make_choice s rand draw = (.error .typeError, s)) ∧
    (sel.start = 0 → (sel.rho = USE_SOFT_MAX ∨ sel.rho = USE_SOFT_MAX_2) →
      activeIds s.asset_map s.total ≠ [] →
      activeIds s.asset_map (s.total + 1) ≠ [] →
      (sel.make_choice s rand draw).1 = .ok ()) := by
  constructor
  · intro hA
    rw [Selector.make_choice]
    rcases hA with hs | ⟨h1, h2⟩
    · rw [if_pos hs]
    · by_cases hs : sel.start ≠ 0
      · rw [if_pos hs]
      · rw [if_neg hs, if_neg h1, if_neg h2]
  · intro hs hrho hne1 hne2
    rw [Selector.make_choice, if_neg (by simp [hs])]
    rcases hrho with h | h
    · rw [if_pos h]
      obtain ⟨i, s2, hok⟩ := soft_max_choice_ok s rand hne1
      rw [hok]
    · have hne : sel.rho ≠ USE_SOFT_MAX := by
        rw [h]; norm_num [USE_SOFT_MAX_2, USE_SOFT_MAX]
      rw [if_neg hne, if_pos h]
      obtain ⟨i, s2, hok⟩ := soft_max_2_choice_ok s rand hne1 hne2
      rw [hok]

/-- Pool with two always-admitted fresh assets. -/
def poolFresh : AssetSet :=
  { asset_map := [(AKey.scalar 0, [0, 1])], total := 0, countsCache := 0,
    store := fun _ => assetB }

/-- Witness for claim C2: a random-mode selector with warm start raises
`TypeError` leaving the pool untouched, while standard softmax with
`start == 0` completes without error on the same pool. -/
theorem make_choice_c2_witness :
    (mkSelector RANDOM 5).make_choice poolFresh 0 0 =
      (.error .typeError, poolFresh) ∧
    ((mkSelector USE_SOFT_MAX 0).make_choice poolFresh 0 0).1 = .ok () :=
  ⟨(make_choice_type_error_c2 (mkSelector RANDOM 5) poolFresh 0 0).1
      (Or.inl (by decide)),
   (make_choice_type_error_c2 (mkSelector USE_SOFT_MAX 0) poolFresh 0 0).2
      rfl (Or.inl rfl) (by decide) (by decide)⟩

/-- Claim C1 failing input: a random-mode selector (`start = 0`) on a pool
with a non-empty active set. One `make_choice` call raises `TypeError` and
records no trial at all (the state is unchanged), instead of recording
exactly one trial. -/
theorem make_choice_no_trial_c1 :
    activeIds poolFresh.asset_map poolFresh.total ≠ [] ∧
    (mkSelector RANDOM 0).make_choice poolFresh 0 0 =
      (.error .typeError, poolFresh) :=
  ⟨by decide, rfl⟩

/-- Claim C3 failing input: a numeric-rho selector with `start = 3` on a
pool whose least-trialed admitted tracker has `0 < 3` trials. The
warm-start gate never runs: the call raises `TypeError` and records no
trial on anything, instead of recording one on the least-trialed
tracker. -/
theorem make_choice_warm_start_c3 :
    (poolFresh.store 0).offers < 3 ∧
    0 ∈ activeIds poolFresh.asset_map poolFresh.total ∧
    (mkSelector (1 / 2) 3).make_choice poolFresh 0 0 =
      (.error .typeError, poolFresh) :=
  ⟨by decide, by decide, rfl⟩
